import Mathlib

/-!
# Verification of the remote-write output pipeline
A shallow embedding of `pkg/remotewrite/remotewrite.go`: the flush
orchestrator (`flush`) and the sample-to-series conversion
(`convertToTimeSeries`), together with the package-level backpressure
flag `flushTooLong`. Collaborators that live outside this package
(`tagsToLabels`, the mapping `transform`, protobuf marshalling, snappy
encoding and the remote-write client) are taken as parameters; where a
claim needs their behaviour, it is modelled from the spec and marked so.
-/

set_option autoImplicit false

namespace RemoteWrite

/-- A prompb label: a (name, value) pair. -/
structure Label where
  name : String
  value : String
deriving DecidableEq, Repr

/-- A prompb sample: one (value, timestamp) point of a time series.
The float64 value is modelled as an integer; no claim exercises value
arithmetic. -/
structure PromSample where
  value : Int
  timestamp : Int
deriving DecidableEq, Repr

/-- A prompb time series: a label set plus a sequence of points. -/
structure TimeSeries where
  labels : List Label
  samples : List PromSample
deriving DecidableEq, Repr

/-- The statistical kind of a k6 metric. -/
inductive MetricType
  | counter
  | gauge
  | rate
  | trend
deriving DecidableEq, Repr

/-- A k6 metric identity: name and kind. -/
structure Metric where
  name : String
  type : MetricType
deriving DecidableEq, Repr

/-- A k6 sample: metric identity, tag set, value and timestamp.
The float64 value is modelled as an integer. -/
structure Sample where
  metric : Metric
  tags : List (String × String)
  value : Int
  time : Int
deriving DecidableEq, Repr

/-- Log calls made by `flush` and `convertToTimeSeries`, in order.
`errorLog` is `o.logger.Error(err)` (used for both label-conversion and
transform errors); the remaining constructors are the individual
logging statements of `flush`, carrying the data each one interpolates. -/
inductive LogEvent
  | errorLog (err : String)
  | debugConverted (nts : Nat)
  | fatalMarshal (err : String)
  | errorStore (err : String)
  | warnFlushTooLong (nts : Nat) (elapsed flushPeriod : Int)
  | debugFlushDone (nts : Nat) (elapsed : Int)
deriving DecidableEq, Repr

/-- The type of `tagsToLabels` (defined outside this package): tag set and
config to labels, or a label-conversion error. The `Config` argument is
absorbed into the function value. -/
abbrev TagsToLabels := List (String × String) → Except String (List Label)

/-- The type of `o.metrics.transform(o.mapping, sample, labels)` (defined
outside this package): sample and labels to zero or more time series, or a
mapping error. The mapping strategy and metrics storage are absorbed into
the function value. -/
abbrev Transform := Sample → List Label → Except String (List TimeSeries)

/-- Modelled from the spec: `tagsToLabels` is defined outside this
package, and the Go call site keeps whatever labels value the failing call
returned; spec §4.2 says such failures are logged "and that sample's
labels are treated as empty". So on error the labels used are `[]`. -/
def labelsOf (ttl : TagsToLabels) (s : Sample) : List Label :=
  match ttl s.tags with
  | .ok ls => ls
  | .error _ => []

/-- The log entries produced by the `tagsToLabels` call for one sample. -/
def labelLogs (ttl : TagsToLabels) (s : Sample) : List LogEvent :=
  match ttl s.tags with
  | .ok _ => []
  | .error e => [.errorLog e]

/-- The inner loop of `convertToTimeSeries` over the samples of one
container: threads the `seen` set (the Go `map[string]bool`, as the list
of names marked true), the accumulated series and the log. -/
def processSamples (ttl : TagsToLabels) (tf : Transform) :
    List Sample → List String → List TimeSeries → List LogEvent →
    List TimeSeries × List String × List LogEvent
  | [], seen, acc, logs => (acc, seen, logs)
  | s :: rest, seen, acc, logs =>
    if seen.contains s.metric.name then
      processSamples ttl tf rest seen acc logs
    else
      let labels := labelsOf ttl s
      let logs1 := logs ++ labelLogs ttl s
      match tf s labels with
      | .error e =>
          processSamples ttl tf rest (seen ++ [s.metric.name]) acc
            (logs1 ++ [.errorLog e])
      | .ok newts =>
          processSamples ttl tf rest (seen ++ [s.metric.name]) (acc ++ newts) logs1

/-- The outer loop of `convertToTimeSeries` over the sample containers.
After each container, if `flushTooLong` is set and more than 150000
series have accumulated, the loop breaks. -/
def convertLoop (ttl : TagsToLabels) (tf : Transform) (flushTooLong : Bool) :
    List (List Sample) → List String → List TimeSeries → List LogEvent →
    List TimeSeries × List LogEvent
  | [], _, acc, logs => (acc, logs)
  | c :: rest, seen, acc, logs =>
    let r := processSamples ttl tf c seen acc logs
    if flushTooLong && decide (r.1.length > 150000) then (r.1, r.2.2)
    else convertLoop ttl tf flushTooLong rest r.2.1 r.1 r.2.2

/-- `Output.convertToTimeSeries`: starts with an empty series slice, an
empty `seen` map and no log output; `flushTooLong` is the value of the
package-level flag read by this call. Returns the series batch and the
log entries emitted. -/
def convertToTimeSeries (ttl : TagsToLabels) (tf : Transform)
    (flushTooLong : Bool) (samplesContainers : List (List Sample)) :
    List TimeSeries × List LogEvent :=
  convertLoop ttl tf flushTooLong samplesContainers [] [] []

/-- The type of `proto.Marshal` applied to the `WriteRequest` holding the
batch (bytes modelled as `List Nat`). -/
abbrev Marshal := List TimeSeries → Except String (List Nat)

/-- The type of `snappy.Encode`. -/
abbrev Encode := List Nat → List Nat

/-- The type of `o.client.Store`: `some err` is a transport failure,
`none` is success. -/
abbrev Store := List Nat → Option String

/-- What one call of `Output.flush` did: the series count `nts`, the log
entries in order, the bytes handed to `client.Store` (if the call was
made) and how many `Store` calls were made, whether `logger.Fatal`
terminated the process, and the value of the package-level `flushTooLong`
flag afterwards. -/
structure FlushOutcome where
  nts : Nat
  logs : List LogEvent
  storedBytes : Option (List Nat)
  storeCalls : Nat
  died : Bool
  flushTooLongAfter : Bool
deriving DecidableEq, Repr

/-- `Output.flush`: drains the buffer (`samplesContainers` is what
`GetBufferedSamples` returned), converts reading the current
`flushTooLong` flag, logs the conversion, marshals, snappy-encodes and
stores, and in a deferred block compares the measured `elapsed` duration
against the configured flush period to log and set the flag. `logrus`'s
`Fatal` exits the process, so on a marshal error the deferred block never
runs: the flag is left unchanged and `Store` is never called. -/
def flush (flushPeriod : Int) (ttl : TagsToLabels) (tf : Transform)
    (marshal : Marshal) (encode : Encode) (store : Store)
    (elapsed : Int) (flushTooLongBefore : Bool)
    (samplesContainers : List (List Sample)) : FlushOutcome :=
  let conv := convertToTimeSeries ttl tf flushTooLongBefore samplesContainers
  let nts := conv.1.length
  let logs1 := conv.2 ++ [.debugConverted nts]
  match marshal conv.1 with
  | .error e =>
      { nts := nts, logs := logs1 ++ [.fatalMarshal e], storedBytes := none,
        storeCalls := 0, died := true, flushTooLongAfter := flushTooLongBefore }
  | .ok buf =>
      let encoded := encode buf
      let logs2 :=
        match store encoded with
        | some e => logs1 ++ [.errorStore e]
        | none => logs1
      let deferred :=
        if elapsed > flushPeriod then ([LogEvent.warnFlushTooLong nts elapsed flushPeriod], true)
        else ([LogEvent.debugFlushDone nts elapsed], false)
      { nts := nts, logs := logs2 ++ deferred.1, storedBytes := some encoded,
        storeCalls := 1, died := false, flushTooLongAfter := deferred.2 }

/-- One `Output` instance: its configured flush period and its external
collaborators (label builder, mapping transform, marshaller, encoder,
write client), fixed at construction. -/
structure OutputInst where
  flushPeriod : Int
  ttl : TagsToLabels
  tf : Transform
  marshal : Marshal
  encode : Encode
  store : Store

/-- The process-wide mutable state: `flushTooLong` is a package-level
variable (`var flushTooLong bool`), one per process, not a field of
`Output`. -/
structure ProcState where
  flushTooLong : Bool
deriving DecidableEq, Repr

/-- One flush cycle of instance `o` against the shared process state:
`flush` reads `st.flushTooLong` and the new process state holds the flag
value the deferred block left behind (unchanged if the cycle died). -/
def flushStep (o : OutputInst) (st : ProcState) (elapsed : Int)
    (samplesContainers : List (List Sample)) : ProcState × FlushOutcome :=
  let outcome := flush o.flushPeriod o.ttl o.tf o.marshal o.encode o.store
    elapsed st.flushTooLong samplesContainers
  ({ flushTooLong := outcome.flushTooLongAfter }, outcome)

/-- Modelled from the spec: the Raw mapping variant, defined outside this
package — "each sample becomes exactly one time series with exactly one
point (the sample's value and timestamp)". -/
def rawTransform (s : Sample) (labels : List Label) :
    Except String (List TimeSeries) :=
  .ok [{ labels := labels, samples := [{ value := s.value, timestamp := s.time }] }]

/-- Keep only the first sample per metric name, threading the set of
names already seen; returns the kept samples and the updated seen set.
This is the dedup policy `convertToTimeSeries` is claimed to implement. -/
def dedupSamples (seen : List String) : List Sample → List Sample × List String
  | [] => ([], seen)
  | s :: rest =>
    if seen.contains s.metric.name then dedupSamples seen rest
    else
      let r := dedupSamples (seen ++ [s.metric.name]) rest
      (s :: r.1, r.2)

/-- `dedupSamples` lifted over a list of containers, threading the seen
set across container boundaries. -/
def dedupContainers (seen : List String) : List (List Sample) → List (List Sample)
  | [] => []
  | c :: rest =>
    let r := dedupSamples seen c
    r.1 :: dedupContainers r.2 rest

theorem processSamples_skip (ttl : TagsToLabels) (tf : Transform)
    (s : Sample) (rest : List Sample) (seen : List String)
    (acc : List TimeSeries) (logs : List LogEvent)
    (h : seen.contains s.metric.name = true) :
    processSamples ttl tf (s :: rest) seen acc logs
      = processSamples ttl tf rest seen acc logs := by
  simp only [processSamples]
  rw [if_pos h]

theorem processSamples_dedup (ttl : TagsToLabels) (tf : Transform) :
    ∀ (l : List Sample) (seen : List String) (acc : List TimeSeries)
      (logs : List LogEvent),
      processSamples ttl tf (dedupSamples seen l).1 seen acc logs
        = processSamples ttl tf l seen acc logs := by
  intro l
  induction l with
  | nil => intro seen acc logs; rfl
  | cons s rest ih =>
    intro seen acc logs
    by_cases h : seen.contains s.metric.name
    · simp only [dedupSamples]
      rw [if_pos h, ih, processSamples_skip ttl tf s rest seen acc logs h]
    · simp only [dedupSamples]
      rw [if_neg h]
      simp only [processSamples]
      rw [if_neg h, if_neg h]
      cases tf s (labelsOf ttl s) with
      | error e => exact ih _ _ _
      | ok newts => exact ih _ _ _

theorem dedupSamples_seen (ttl : TagsToLabels) (tf : Transform) :
    ∀ (l : List Sample) (seen : List String) (acc : List TimeSeries)
      (logs : List LogEvent),
      (dedupSamples seen l).2 = (processSamples ttl tf l seen acc logs).2.1 := by
  intro l
  induction l with
  | nil => intro seen acc logs; rfl
  | cons s rest ih =>
    intro seen acc logs
    by_cases h : seen.contains s.metric.name
    · simp only [dedupSamples]
      rw [if_pos h, processSamples_skip ttl tf s rest seen acc logs h]
      exact ih seen acc logs
    · simp only [dedupSamples]
      rw [if_neg h]
      simp only [processSamples]
      rw [if_neg h]
      cases tf s (labelsOf ttl s) with
      | error e => exact ih _ _ _
      | ok newts => exact ih _ _ _

theorem convertLoop_dedup (ttl : TagsToLabels) (tf : Transform) (flag : Bool) :
    ∀ (cs : List (List Sample)) (seen : List String) (acc : List TimeSeries)
      (logs : List LogEvent),
      convertLoop ttl tf flag (dedupContainers seen cs) seen acc logs
        = convertLoop ttl tf flag cs seen acc logs := by
  intro cs
  induction cs with
  | nil => intro seen acc logs; rfl
  | cons c rest ih =>
    intro seen acc logs
    simp only [dedupContainers, convertLoop]
    rw [processSamples_dedup ttl tf c seen acc logs,
      dedupSamples_seen ttl tf c seen acc logs]
    by_cases h : flag && decide ((processSamples ttl tf c seen acc logs).1.length > 150000)
    · rw [if_pos h, if_pos h]
    · rw [if_neg h, if_neg h, ih]

theorem processSamples_filter_seen (ttl : TagsToLabels) (tf : Transform)
    (nm : String) :
    ∀ (l : List Sample) (seen : List String) (acc : List TimeSeries)
      (logs : List LogEvent), seen.contains nm = true →
      processSamples ttl tf l seen acc logs
        = processSamples ttl tf (l.filter fun x => x.metric.name != nm)
            seen acc logs := by
  intro l
  induction l with
  | nil => intro seen acc logs _; rfl
  | cons s rest ih =>
    intro seen acc logs hnm
    by_cases heq : s.metric.name = nm
    · have hs : seen.contains s.metric.name = true := heq ▸ hnm
      rw [processSamples_skip ttl tf s rest seen acc logs hs]
      have hf : (s :: rest).filter (fun x => x.metric.name != nm)
          = rest.filter fun x => x.metric.name != nm := by
        have hb : (s.metric.name != nm) = false := by
          simp [bne_eq_false_iff_eq, heq]
        simp [List.filter_cons, hb]
      rw [hf]
      exact ih seen acc logs hnm
    · have hf : (s :: rest).filter (fun x => x.metric.name != nm)
          = s :: rest.filter fun x => x.metric.name != nm := by
        have hb : (s.metric.name != nm) = true := by
          simp [bne_iff_ne]
          exact heq
        simp [List.filter_cons, hb]
      rw [hf]
      by_cases h : seen.contains s.metric.name
      · rw [processSamples_skip ttl tf s rest seen acc logs h,
          processSamples_skip ttl tf s _ seen acc logs h]
        exact ih seen acc logs hnm
      · simp only [processSamples]
        rw [if_neg h, if_neg h]
        have hnm2 : (seen ++ [s.metric.name]).contains nm = true := by
          simp only [List.contains_eq_any_beq] at *
          simp only [List.any_append, hnm, Bool.true_or]
        cases tf s (labelsOf ttl s) with
        | error e => exact ih _ _ _ hnm2
        | ok newts => exact ih _ _ _ hnm2

theorem processSamples_seen_preserved (ttl : TagsToLabels) (tf : Transform)
    (nm : String) :
    ∀ (l : List Sample) (seen : List String) (acc : List TimeSeries)
      (logs : List LogEvent), seen.contains nm = true →
      (processSamples ttl tf l seen acc logs).2.1.contains nm = true := by
  intro l
  induction l with
  | nil => intro seen acc logs hnm; exact hnm
  | cons s rest ih =>
    intro seen acc logs hnm
    by_cases h : seen.contains s.metric.name
    · rw [processSamples_skip ttl tf s rest seen acc logs h]
      exact ih seen acc logs hnm
    · have hnm2 : (seen ++ [s.metric.name]).contains nm = true := by
        simp only [List.contains_eq_any_beq] at *
        simp only [List.any_append, hnm, Bool.true_or]
      simp only [processSamples]
      rw [if_neg h]
      cases tf s (labelsOf ttl s) with
      | error e => exact ih _ _ _ hnm2
      | ok newts => exact ih _ _ _ hnm2

theorem processSamples_logs_mono (ttl : TagsToLabels) (tf : Transform)
    (x : LogEvent) :
    ∀ (l : List Sample) (seen : List String) (acc : List TimeSeries)
      (logs : List LogEvent), x ∈ logs →
      x ∈ (processSamples ttl tf l seen acc logs).2.2 := by
  intro l
  induction l with
  | nil => intro seen acc logs hx; exact hx
  | cons s rest ih =>
    intro seen acc logs hx
    by_cases h : seen.contains s.metric.name
    · rw [processSamples_skip ttl tf s rest seen acc logs h]
      exact ih seen acc logs hx
    · simp only [processSamples]
      rw [if_neg h]
      cases tf s (labelsOf ttl s) with
      | error e =>
        exact ih _ _ _ (by simp only [List.mem_append]; exact Or.inl (Or.inl hx))
      | ok newts =>
        exact ih _ _ _ (by simp only [List.mem_append]; exact Or.inl hx)

/-- C1: within one call of `convertToTimeSeries`, a sample whose metric
name was already seen is skipped entirely (it changes neither the batch,
nor the seen set, nor the log), and the whole conversion — batch and log
alike — is unchanged by first removing every sample that repeats the
metric name of an earlier sample of the same call: only the first-seen
sample per metric name is ever label-built and transformed. -/
theorem convertToTimeSeries_dedups_by_metric_name
    (ttl : TagsToLabels) (tf : Transform) (flag : Bool)
    (cs : List (List Sample)) (s : Sample) (rest : List Sample)
    (seen : List String) (acc : List TimeSeries) (logs : List LogEvent)
    (h : seen.contains s.metric.name = true) :
    processSamples ttl tf (s :: rest) seen acc logs
        = processSamples ttl tf rest seen acc logs
    ∧ convertToTimeSeries ttl tf flag cs
        = convertToTimeSeries ttl tf flag (dedupContainers [] cs) := by
  constructor
  · exact processSamples_skip ttl tf s rest seen acc logs h
  · unfold convertToTimeSeries
    rw [convertLoop_dedup]

theorem contains_append_self (seen : List String) (nm : String) :
    (seen ++ [nm]).contains nm = true := by
  simp [List.contains_eq_any_beq, List.any_append]

theorem processSamples_transform_error (ttl : TagsToLabels) (tf : Transform)
    (s : Sample) (rest : List Sample) (seen : List String)
    (acc : List TimeSeries) (logs : List LogEvent) (e : String)
    (hseen : seen.contains s.metric.name = false)
    (htf : tf s (labelsOf ttl s) = .error e) :
    processSamples ttl tf (s :: rest) seen acc logs
      = processSamples ttl tf rest (seen ++ [s.metric.name]) acc
          ((logs ++ labelLogs ttl s) ++ [LogEvent.errorLog e]) := by
  simp only [processSamples]
  rw [if_neg (by simp only [hseen]; exact Bool.false_ne_true), htf]

/-- C6: when `transform` fails on a sample, the error is logged via
`logger.Error`, the sample appends nothing to the batch (the
accumulator is passed on unchanged), and the loop continues with the
remaining samples instead of aborting. -/
theorem transform_error_logged_sample_dropped_cycle_continues
    (ttl : TagsToLabels) (tf : Transform) (s : Sample) (rest : List Sample)
    (seen : List String) (acc : List TimeSeries) (logs : List LogEvent) (e : String)
    (hseen : seen.contains s.metric.name = false)
    (htf : tf s (labelsOf ttl s) = .error e) :
    processSamples ttl tf (s :: rest) seen acc logs
      = processSamples ttl tf rest (seen ++ [s.metric.name]) acc
          ((logs ++ labelLogs ttl s) ++ [LogEvent.errorLog e])
    ∧ LogEvent.errorLog e ∈ (processSamples ttl tf (s :: rest) seen acc logs).2.2 := by
  have h1 := processSamples_transform_error ttl tf s rest seen acc logs e hseen htf
  refine ⟨h1, ?_⟩
  rw [h1]
  exact processSamples_logs_mono ttl tf _ rest _ acc _ (by simp)

/-- C7: when building labels from a sample's tag set fails, the failure
is logged via `logger.Error`, the sample is still handed to `transform`
with the empty label list, and the loop continues with the remaining
samples instead of aborting. -/
theorem label_error_logged_empty_labels_cycle_continues
    (ttl : TagsToLabels) (tf : Transform) (s : Sample) (rest : List Sample)
    (seen : List String) (acc : List TimeSeries) (logs : List LogEvent) (e : String)
    (hlab : ttl s.tags = .error e)
    (hseen : seen.contains s.metric.name = false) :
    processSamples ttl tf (s :: rest) seen acc logs
      = (match tf s [] with
         | .ok newts => processSamples ttl tf rest (seen ++ [s.metric.name])
             (acc ++ newts) (logs ++ [LogEvent.errorLog e])
         | .error e2 => processSamples ttl tf rest (seen ++ [s.metric.name]) acc
             ((logs ++ [LogEvent.errorLog e]) ++ [LogEvent.errorLog e2]))
    ∧ LogEvent.errorLog e ∈ (processSamples ttl tf (s :: rest) seen acc logs).2.2 := by
  have hl : labelsOf ttl s = [] := by simp [labelsOf, hlab]
  have hll : labelLogs ttl s = [LogEvent.errorLog e] := by simp [labelLogs, hlab]
  have h1 : processSamples ttl tf (s :: rest) seen acc logs
      = (match tf s [] with
         | .ok newts => processSamples ttl tf rest (seen ++ [s.metric.name])
             (acc ++ newts) (logs ++ [LogEvent.errorLog e])
         | .error e2 => processSamples ttl tf rest (seen ++ [s.metric.name]) acc
             ((logs ++ [LogEvent.errorLog e]) ++ [LogEvent.errorLog e2])) := by
    simp only [processSamples]
    rw [if_neg (by simp only [hseen]; exact Bool.false_ne_true), hl, hll]
    cases h2 : tf s [] with
    | error e2 => rfl
    | ok newts => rfl
  refine ⟨h1, ?_⟩
  rw [h1]
  cases h2 : tf s [] with
  | error e2 =>
    exact processSamples_logs_mono ttl tf _ rest _ acc _ (by simp)
  | ok newts =>
    exact processSamples_logs_mono ttl tf _ rest _ _ _ (by simp)

/-- C9: a metric name is marked seen unconditionally — whatever the
label-conversion and transform outcomes were — so when the first sample
of a name fails to transform, the whole cycle's batch is what it would
have been had every later sample of that name been removed from the
input: the metric contributes zero series for the cycle. -/
theorem failed_first_sample_blanks_metric_for_cycle
    (ttl : TagsToLabels) (tf : Transform) (s : Sample) (rest : List Sample)
    (seen : List String) (acc : List TimeSeries) (logs : List LogEvent) (e : String)
    (hseen : seen.contains s.metric.name = false)
    (htf : tf s (labelsOf ttl s) = .error e) :
    processSamples ttl tf (s :: rest) seen acc logs
      = processSamples ttl tf (rest.filter fun x => x.metric.name != s.metric.name)
          (seen ++ [s.metric.name]) acc ((logs ++ labelLogs ttl s) ++ [LogEvent.errorLog e])
    ∧ ∀ tf2 : Transform,
        (processSamples ttl tf2 (s :: rest) seen acc logs).2.1.contains s.metric.name
          = true := by
  constructor
  · rw [processSamples_transform_error ttl tf s rest seen acc logs e hseen htf]
    exact processSamples_filter_seen ttl tf s.metric.name rest _ acc _
      (contains_append_self seen s.metric.name)
  · intro tf2
    simp only [processSamples]
    rw [if_neg (by simp only [hseen]; exact Bool.false_ne_true)]
    cases tf2 s (labelsOf ttl s) with
    | error e2 =>
      exact processSamples_seen_preserved ttl tf2 s.metric.name rest _ acc _
        (contains_append_self seen s.metric.name)
    | ok newts =>
      exact processSamples_seen_preserved ttl tf2 s.metric.name rest _ _ _
        (contains_append_self seen s.metric.name)

theorem processSamples_append (ttl : TagsToLabels) (tf : Transform) :
    ∀ (a b : List Sample) (seen : List String) (acc : List TimeSeries)
      (logs : List LogEvent),
      processSamples ttl tf (a ++ b) seen acc logs
        = processSamples ttl tf b (processSamples ttl tf a seen acc logs).2.1
            (processSamples ttl tf a seen acc logs).1
            (processSamples ttl tf a seen acc logs).2.2 := by
  intro a
  induction a with
  | nil => intro b seen acc logs; rfl
  | cons s rest ih =>
    intro b seen acc logs
    by_cases h : seen.contains s.metric.name
    · rw [List.cons_append, processSamples_skip ttl tf s (rest ++ b) seen acc logs h,
        processSamples_skip ttl tf s rest seen acc logs h]
      exact ih b seen acc logs
    · rw [List.cons_append]
      simp only [processSamples]
      rw [if_neg h, if_neg h]
      cases tf s (labelsOf ttl s) with
      | error e => exact ih b _ _ _
      | ok newts => exact ih b _ _ _

theorem convertLoop_false_cons (ttl : TagsToLabels) (tf : Transform)
    (c : List Sample) (cs : List (List Sample)) (seen : List String)
    (acc : List TimeSeries) (logs : List LogEvent) :
    convertLoop ttl tf false (c :: cs) seen acc logs
      = convertLoop ttl tf false cs (processSamples ttl tf c seen acc logs).2.1
          (processSamples ttl tf c seen acc logs).1
          (processSamples ttl tf c seen acc logs).2.2 := rfl

theorem convertLoop_false_join (ttl : TagsToLabels) (tf : Transform) :
    ∀ (cs : List (List Sample)) (seen : List String) (acc : List TimeSeries)
      (logs : List LogEvent),
      convertLoop ttl tf false cs seen acc logs
        = ((processSamples ttl tf cs.flatten seen acc logs).1,
           (processSamples ttl tf cs.flatten seen acc logs).2.2) := by
  intro cs
  induction cs with
  | nil => intro seen acc logs; rfl
  | cons c rest ih =>
    intro seen acc logs
    rw [convertLoop_false_cons, ih, List.flatten_cons, processSamples_append]

theorem convertLoop_true_step (ttl : TagsToLabels) (tf : Transform)
    (c : List Sample) (cs : List (List Sample)) (seen : List String)
    (acc : List TimeSeries) (logs : List LogEvent) :
    convertLoop ttl tf true (c :: cs) seen acc logs
      = if 150000 < (processSamples ttl tf c seen acc logs).1.length
        then ((processSamples ttl tf c seen acc logs).1,
              (processSamples ttl tf c seen acc logs).2.2)
        else convertLoop ttl tf true cs (processSamples ttl tf c seen acc logs).2.1
               (processSamples ttl tf c seen acc logs).1
               (processSamples ttl tf c seen acc logs).2.2 := by
  simp only [convertLoop, Bool.true_and, decide_eq_true_eq, gt_iff_lt]

theorem convertLoop_true_cap (ttl : TagsToLabels) (tf : Transform) :
    ∀ (cs : List (List Sample)) (seen : List String) (acc : List TimeSeries)
      (logs : List LogEvent),
      ∃ k, k ≤ cs.length
        ∧ convertLoop ttl tf true cs seen acc logs
            = convertLoop ttl tf false (cs.take k) seen acc logs
        ∧ (k < cs.length →
            150000 < (convertLoop ttl tf false (cs.take k) seen acc logs).1.length)
        ∧ ∀ j, 0 < j → j < k →
            (convertLoop ttl tf false (cs.take j) seen acc logs).1.length ≤ 150000 := by
  intro cs
  induction cs with
  | nil =>
    intro seen acc logs
    exact ⟨0, Nat.le_refl 0, rfl,
      fun h => absurd h (Nat.not_lt_zero 0),
      fun j _ hjk => absurd hjk (Nat.not_lt_zero j)⟩
  | cons c rest ih =>
    intro seen acc logs
    by_cases hc : 150000 < (processSamples ttl tf c seen acc logs).1.length
    · refine ⟨1, Nat.succ_le_succ (Nat.zero_le _), ?_, fun _ => hc, ?_⟩
      · rw [convertLoop_true_step, if_pos hc]
        rfl
      · intro j hj hjk
        omega
    · obtain ⟨k', hle, heq, hgt, hmin⟩ :=
        ih (processSamples ttl tf c seen acc logs).2.1
          (processSamples ttl tf c seen acc logs).1
          (processSamples ttl tf c seen acc logs).2.2
      refine ⟨k' + 1, Nat.succ_le_succ hle, ?_, ?_, ?_⟩
      · rw [convertLoop_true_step, if_neg hc, heq]
        rfl
      · intro hklt
        exact hgt (Nat.lt_of_succ_lt_succ hklt)
      · intro j hj hjk
        cases j with
        | zero => omega
        | succ i =>
          cases i with
          | zero => exact Nat.le_of_not_lt hc
          | succ i2 => exact hmin (i2 + 1) (Nat.succ_pos i2) (by omega)

theorem flush_nts (p : Int) (ttl : TagsToLabels) (tf : Transform)
    (marshal : Marshal) (encode : Encode) (store : Store) (elapsed : Int)
    (flagB : Bool) (cs : List (List Sample)) :
    (flush p ttl tf marshal encode store elapsed flagB cs).nts
      = (convertToTimeSeries ttl tf flagB cs).1.length := by
  simp only [flush]
  cases marshal (convertToTimeSeries ttl tf flagB cs).1 with
  | error e => rfl
  | ok buf =>
    cases store (encode buf) with
    | some e =>
      by_cases h : elapsed > p
      · rw [if_pos h]
      · rw [if_neg h]
    | none =>
      by_cases h : elapsed > p
      · rw [if_pos h]
      · rw [if_neg h]

/-- C3: when the backpressure flag read by the conversion is clear, no
cap applies — the batch and log are exactly those of processing every
drained container in full; when the flag is set, the conversion is cut
off at the first container boundary at which the accumulated batch
exceeds 150000 series (a literal in the code, independent of any
configuration): the result equals full processing of exactly the first
`k` containers, where after `k` containers — and no earlier — the batch
exceeds 150000 (or `k` is all of them); and the flag a flush cycle's
conversion reads is the one in the shared state when the cycle starts,
since the cycle writes the flag only after conversion is done. -/
theorem backpressure_cap_at_150000
    (ttl : TagsToLabels) (tf : Transform) (cs : List (List Sample)) :
    convertToTimeSeries ttl tf false cs
        = ((processSamples ttl tf cs.flatten [] [] []).1,
           (processSamples ttl tf cs.flatten [] [] []).2.2)
    ∧ (∃ k, k ≤ cs.length
        ∧ convertToTimeSeries ttl tf true cs
            = convertToTimeSeries ttl tf false (cs.take k)
        ∧ (k < cs.length →
            150000 < (convertToTimeSeries ttl tf false (cs.take k)).1.length)
        ∧ ∀ j, j < k →
            (convertToTimeSeries ttl tf false (cs.take j)).1.length ≤ 150000)
    ∧ ∀ (o : OutputInst) (st : ProcState) (elapsed : Int),
        ((flushStep o st elapsed cs).2).nts
          = (convertToTimeSeries o.ttl o.tf st.flushTooLong cs).1.length := by
  refine ⟨convertLoop_false_join ttl tf cs [] [] [], ?_, ?_⟩
  · obtain ⟨k, hle, heq, hgt, hmin⟩ := convertLoop_true_cap ttl tf cs [] [] []
    refine ⟨k, hle, heq, hgt, ?_⟩
    intro j hjk
    cases j with
    | zero =>
      rw [List.take_zero]
      exact Nat.zero_le 150000
    | succ i => exact hmin (i + 1) (Nat.succ_pos i) hjk
  · intro o st elapsed
    exact flush_nts o.flushPeriod o.ttl o.tf o.marshal o.encode o.store elapsed
      st.flushTooLong cs

/-- C4: whenever a flush cycle completes (its batch marshalled without a
fatal error), the deferred block sets the shared flag to exactly whether
the measured elapsed time exceeded the configured flush period; in the
overrun case a warning carrying the produced series count is logged, and
otherwise a debug entry carrying that count is logged. -/
theorem flag_tracks_overrun
    (p : Int) (ttl : TagsToLabels) (tf : Transform) (marshal : Marshal)
    (encode : Encode) (store : Store) (elapsed : Int) (flagB : Bool)
    (cs : List (List Sample)) (buf : List Nat)
    (hm : marshal (convertToTimeSeries ttl tf flagB cs).1 = .ok buf) :
    (flush p ttl tf marshal encode store elapsed flagB cs).flushTooLongAfter
        = decide (elapsed > p)
    ∧ (elapsed > p →
        LogEvent.warnFlushTooLong
            (flush p ttl tf marshal encode store elapsed flagB cs).nts elapsed p
          ∈ (flush p ttl tf marshal encode store elapsed flagB cs).logs)
    ∧ (¬ elapsed > p →
        LogEvent.debugFlushDone
            (flush p ttl tf marshal encode store elapsed flagB cs).nts elapsed
          ∈ (flush p ttl tf marshal encode store elapsed flagB cs).logs)
    ∧ (flush p ttl tf marshal encode store elapsed flagB cs).nts
        = (convertToTimeSeries ttl tf flagB cs).1.length := by
  simp only [flush, hm]
  by_cases h : elapsed > p
  · cases store (encode buf) <;> simp [h]
  · cases store (encode buf) <;> simp [h]

/-- C8: a transport failure is logged via `logger.Error` and absorbed —
`flush` returns normally (the process does not die), `Store` was called
exactly once (no retry), nothing of the batch is retained, and the
deferred overrun bookkeeping still runs; a marshal failure, by
contrast, is fatal: the process dies and nothing is ever handed to
`Store`. -/
theorem transport_error_logged_batch_dropped
    (p : Int) (ttl : TagsToLabels) (tf : Transform) (marshal : Marshal)
    (encode : Encode) (store : Store) (elapsed : Int) (flagB : Bool)
    (cs : List (List Sample)) (buf : List Nat) (e : String)
    (hm : marshal (convertToTimeSeries ttl tf flagB cs).1 = .ok buf)
    (hs : store (encode buf) = some e) :
    (flush p ttl tf marshal encode store elapsed flagB cs).died = false
    ∧ (flush p ttl tf marshal encode store elapsed flagB cs).storeCalls = 1
    ∧ LogEvent.errorStore e
        ∈ (flush p ttl tf marshal encode store elapsed flagB cs).logs
    ∧ (flush p ttl tf marshal encode store elapsed flagB cs).flushTooLongAfter
        = decide (elapsed > p)
    ∧ ∀ (marshal2 : Marshal) (e2 : String),
        marshal2 (convertToTimeSeries ttl tf flagB cs).1 = .error e2 →
        (flush p ttl tf marshal2 encode store elapsed flagB cs).died = true
        ∧ (flush p ttl tf marshal2 encode store elapsed flagB cs).storedBytes = none
        ∧ (flush p ttl tf marshal2 encode store elapsed flagB cs).storeCalls = 0
        ∧ LogEvent.fatalMarshal e2
            ∈ (flush p ttl tf marshal2 encode store elapsed flagB cs).logs := by
  refine ⟨?_, ?_, ?_, ?_, ?_⟩
  · simp [flush, hm]
  · simp [flush, hm]
  · simp [flush, hm, hs]
  · simp only [flush, hm]
    by_cases h : elapsed > p <;> simp [h]
  · intro marshal2 e2 hm2
    simp [flush, hm2]

/-- C10: a flush cycle with an empty drained buffer still marshals the
empty batch, snappy-encodes it and hands it to `Store`; and in general
whenever marshalling succeeds, the encoded bytes are handed to `Store`
unconditionally. -/
theorem empty_drain_still_sent
    (p : Int) (ttl : TagsToLabels) (tf : Transform) (marshal : Marshal)
    (encode : Encode) (store : Store) (elapsed : Int) (flagB : Bool)
    (buf : List Nat)
    (hm : marshal [] = .ok buf) :
    (flush p ttl tf marshal encode store elapsed flagB []).storedBytes
        = some (encode buf)
    ∧ (flush p ttl tf marshal encode store elapsed flagB []).storeCalls = 1
    ∧ (flush p ttl tf marshal encode store elapsed flagB []).nts = 0
    ∧ ∀ (cs : List (List Sample)) (buf2 : List Nat),
        marshal (convertToTimeSeries ttl tf flagB cs).1 = .ok buf2 →
        (flush p ttl tf marshal encode store elapsed flagB cs).storedBytes
          = some (encode buf2) := by
  have hconv : (convertToTimeSeries ttl tf flagB ([] : List (List Sample))).1
      = [] := rfl
  refine ⟨?_, ?_, ?_, ?_⟩
  · simp [flush, hconv, hm]
  · simp [flush, hconv, hm]
  · simp [flush, hconv, hm]
  · intro cs buf2 hm2
    simp [flush, hm2]

theorem mem_processSamples (ttl : TagsToLabels) (tf : Transform) :
    ∀ (l : List Sample) (seen : List String) (acc : List TimeSeries)
      (logs : List LogEvent) (t : TimeSeries),
      t ∈ (processSamples ttl tf l seen acc logs).1 →
      t ∈ acc ∨ ∃ s ls ts, tf s ls = .ok ts ∧ t ∈ ts := by
  intro l
  induction l with
  | nil => intro seen acc logs t ht; exact Or.inl ht
  | cons s rest ih =>
    intro seen acc logs t ht
    by_cases h : seen.contains s.metric.name
    · rw [processSamples_skip ttl tf s rest seen acc logs h] at ht
      exact ih seen acc logs t ht
    · simp only [processSamples] at ht
      rw [if_neg h] at ht
      cases htf : tf s (labelsOf ttl s) with
      | error e =>
        rw [htf] at ht
        exact ih _ _ _ t ht
      | ok newts =>
        rw [htf] at ht
        rcases ih _ _ _ t ht with hacc | hex
        · rcases List.mem_append.mp hacc with h1 | h2
          · exact Or.inl h1
          · exact Or.inr ⟨s, labelsOf ttl s, newts, htf, h2⟩
        · exact Or.inr hex

theorem mem_convertLoop (ttl : TagsToLabels) (tf : Transform) (flag : Bool) :
    ∀ (cs : List (List Sample)) (seen : List String) (acc : List TimeSeries)
      (logs : List LogEvent) (t : TimeSeries),
      t ∈ (convertLoop ttl tf flag cs seen acc logs).1 →
      t ∈ acc ∨ ∃ s ls ts, tf s ls = .ok ts ∧ t ∈ ts := by
  intro cs
  induction cs with
  | nil => intro seen acc logs t ht; exact Or.inl ht
  | cons c rest ih =>
    intro seen acc logs t ht
    simp only [convertLoop] at ht
    by_cases hcond :
        flag && decide ((processSamples ttl tf c seen acc logs).1.length > 150000)
    · rw [if_pos hcond] at ht
      exact mem_processSamples ttl tf c seen acc logs t ht
    · rw [if_neg hcond] at ht
      rcases ih _ _ _ t ht with hacc | hex
      · exact mem_processSamples ttl tf c seen acc logs t hacc
      · exact Or.inr hex

/-- C2: every series in a batch is some whole output of one `transform`
call, so if every series `transform` ever returns has pairwise-distinct
point timestamps, every series of every batch does too — regardless of
how many samples with identical metric names and timestamps the buffer
held. -/
theorem no_duplicate_timestamps_within_series
    (ttl : TagsToLabels) (tf : Transform) (flag : Bool)
    (cs : List (List Sample))
    (h : ∀ (s : Sample) (ls : List Label) (ts : List TimeSeries),
        tf s ls = .ok ts →
        ∀ t ∈ ts, (t.samples.map PromSample.timestamp).Nodup) :
    ∀ t ∈ (convertToTimeSeries ttl tf flag cs).1,
      (t.samples.map PromSample.timestamp).Nodup := by
  intro t ht
  rcases mem_convertLoop ttl tf flag cs [] [] [] t ht with habs | ⟨s, ls, ts, htf, hts⟩
  · exact absurd habs (List.not_mem_nil t)
  · exact h s ls ts htf t hts

theorem rawTransform_nodup_timestamps :
    ∀ (s : Sample) (ls : List Label) (ts : List TimeSeries),
      rawTransform s ls = .ok ts →
      ∀ t ∈ ts, (t.samples.map PromSample.timestamp).Nodup := by
  intro s ls ts h t ht
  simp only [rawTransform, Except.ok.injEq] at h
  subst h
  simp only [List.mem_singleton] at ht
  subst ht
  simp

/-- A time series value used by the interference example. -/
def emptyTS : TimeSeries := { labels := [], samples := [] }

/-- The size of the flooding transform's output, kept behind a name so
that list literals of this length are never built. -/
def bigN : Nat := 150001

/-- The batch one flooding transform call emits. -/
def bigBatch : List TimeSeries := List.replicate bigN emptyTS

theorem bigBatch_length : bigBatch.length = 150001 := by
  unfold bigBatch
  rw [List.length_replicate]
  rfl

/-- A transform emitting 150001 series for any sample; exercises the
backpressure cap. -/
def bigTransform : Transform :=
  fun _ _ => .ok bigBatch

/-- A minimal sample carrying only a metric name. -/
def sampleNamed (nm : String) : Sample :=
  { metric := { name := nm, type := .counter }, tags := [], value := 0, time := 0 }

theorem processSamples_big (nm : String) (seen : List String)
    (acc : List TimeSeries) (logs : List LogEvent)
    (h : seen.contains nm = false) :
    processSamples (fun _ => .ok []) bigTransform [sampleNamed nm] seen acc logs
      = (acc ++ bigBatch, seen ++ [nm], logs) := by
  have hnm : (sampleNamed nm).metric.name = nm := rfl
  simp only [processSamples, hnm]
  rw [if_neg (by simp only [h]; exact Bool.false_ne_true)]
  simp [bigTransform, labelLogs, labelsOf, sampleNamed]

theorem bigConvert_true :
    (convertToTimeSeries (fun _ => .ok []) bigTransform true
      [[sampleNamed "a"], [sampleNamed "b"]]).1.length = 150001 := by
  unfold convertToTimeSeries
  rw [convertLoop_true_step, processSamples_big "a" [] [] [] rfl]
  rw [if_pos (by simp [bigBatch_length])]
  simp [bigBatch_length]

theorem bigConvert_false :
    (convertToTimeSeries (fun _ => .ok []) bigTransform false
      [[sampleNamed "a"], [sampleNamed "b"]]).1.length = 300002 := by
  unfold convertToTimeSeries
  rw [convertLoop_false_cons, processSamples_big "a" [] [] [] rfl]
  simp only [List.nil_append]
  rw [convertLoop_false_cons, processSamples_big "b" ["a"] bigBatch [] (by decide)]
  simp [convertLoop, bigBatch_length]

/-- The `Output` instance of the interference example: its collaborators
never fail and its transform floods the batch. -/
def bigInst : OutputInst :=
  { flushPeriod := 10, ttl := fun _ => .ok [], tf := bigTransform,
    marshal := fun _ => .ok [], encode := id, store := fun _ => none }

/-- C5: `flushTooLong` is process state, not instance state. The flag one
instance's flush leaves in the shared `ProcState` is a function of that
instance's own cycle alone — its elapsed time against its own period
when the cycle completed, unchanged when the cycle died — it is the value any other instance's
next cycle converts with, and the shared flag alone changes another
instance's output: a concrete instance produces 150001 series when the
shared flag is `true` and 300002 when it is `false`, on the same input.
The flag update touches nothing per-instance: the whole shared state is
the one boolean, and each instance's outcome (its logs included) is a
function of its own inputs plus that boolean. -/
theorem flushTooLong_is_process_wide :
    (∀ (a : OutputInst) (st : ProcState) (eA : Int) (csA : List (List Sample)),
      ((flushStep a st eA csA).2.died = false →
        (flushStep a st eA csA).1.flushTooLong = decide (eA > a.flushPeriod))
      ∧ ((flushStep a st eA csA).2.died = true →
        (flushStep a st eA csA).1.flushTooLong = st.flushTooLong))
    ∧ (∀ (a b : OutputInst) (st : ProcState) (eA eB : Int)
        (csA csB : List (List Sample)),
        (flushStep b (flushStep a st eA csA).1 eB csB).2
          = (flushStep b { flushTooLong := (flushStep a st eA csA).1.flushTooLong }
              eB csB).2)
    ∧ ∃ (b : OutputInst) (eB : Int) (csB : List (List Sample)),
        (flushStep b { flushTooLong := true } eB csB).2.nts
          ≠ (flushStep b { flushTooLong := false } eB csB).2.nts := by
  refine ⟨?_, ?_, ?_⟩
  · intro a st eA csA
    simp only [flushStep, flush]
    cases a.marshal (convertToTimeSeries a.ttl a.tf st.flushTooLong csA).1 with
    | error e => exact ⟨fun h => absurd h (by simp), fun _ => rfl⟩
    | ok buf =>
      constructor
      · intro _
        by_cases h : eA > a.flushPeriod
        · simp [h]
        · simp [h]
      · intro hdied
        exact absurd hdied (by simp)
  · intro a b st eA eB csA csB
    rfl
  · refine ⟨bigInst, 0, [[sampleNamed "a"], [sampleNamed "b"]], ?_⟩
    have h1 : (flushStep bigInst { flushTooLong := true } 0
        [[sampleNamed "a"], [sampleNamed "b"]]).2.nts = 150001 := by
      show (flush bigInst.flushPeriod bigInst.ttl bigInst.tf bigInst.marshal
        bigInst.encode bigInst.store 0 true [[sampleNamed "a"], [sampleNamed "b"]]).nts
        = 150001
      rw [flush_nts]
      exact bigConvert_true
    have h2 : (flushStep bigInst { flushTooLong := false } 0
        [[sampleNamed "a"], [sampleNamed "b"]]).2.nts = 300002 := by
      show (flush bigInst.flushPeriod bigInst.ttl bigInst.tf bigInst.marshal
        bigInst.encode bigInst.store 0 false [[sampleNamed "a"], [sampleNamed "b"]]).nts
        = 300002
      rw [flush_nts]
      exact bigConvert_false
    rw [h1, h2]
    omega

/-- A label builder that always succeeds with no labels. -/
def ttlOk : TagsToLabels := fun _ => .ok []

/-- A label builder that always fails. -/
def ttlBad : TagsToLabels := fun _ => .error "label error"

/-- A transform that always fails with a mapping error. -/
def failTf : Transform := fun _ _ => .error "mapping error"

/-- A marshaller that always succeeds with fixed bytes. -/
def mOk : Marshal := fun _ => .ok [7]

/-- A write client that always succeeds. -/
def storeOk : Store := fun _ => none

/-- A write client that always fails. -/
def storeFail : Store := fun _ => some "store error"

theorem convertToTimeSeries_dedups_by_metric_name_witness :
    (["a"].contains (sampleNamed "a").metric.name = true)
    ∧ (processSamples ttlOk rawTransform [sampleNamed "a", sampleNamed "b"] ["a"] [] []
        = processSamples ttlOk rawTransform [sampleNamed "b"] ["a"] [] []
      ∧ convertToTimeSeries ttlOk rawTransform false
          [[sampleNamed "a", sampleNamed "a"]]
        = convertToTimeSeries ttlOk rawTransform false
            (dedupContainers [] [[sampleNamed "a", sampleNamed "a"]])) :=
  ⟨by decide,
   convertToTimeSeries_dedups_by_metric_name ttlOk rawTransform false
     [[sampleNamed "a", sampleNamed "a"]] (sampleNamed "a") [sampleNamed "b"]
     ["a"] [] [] (by decide)⟩

theorem no_duplicate_timestamps_within_series_witness :
    (∀ (s : Sample) (ls : List Label) (ts : List TimeSeries),
        rawTransform s ls = .ok ts →
        ∀ t ∈ ts, (t.samples.map PromSample.timestamp).Nodup)
    ∧ ∀ t ∈ (convertToTimeSeries ttlOk rawTransform false
          [[sampleNamed "http_reqs", sampleNamed "http_reqs",
            sampleNamed "http_reqs"]]).1,
        (t.samples.map PromSample.timestamp).Nodup :=
  ⟨rawTransform_nodup_timestamps,
   no_duplicate_timestamps_within_series ttlOk rawTransform false
     [[sampleNamed "http_reqs", sampleNamed "http_reqs", sampleNamed "http_reqs"]]
     rawTransform_nodup_timestamps⟩

theorem flag_tracks_overrun_witness :
    (mOk (convertToTimeSeries ttlOk rawTransform false [[sampleNamed "a"]]).1
        = .ok [7])
    ∧ (flush 3 ttlOk rawTransform mOk id storeOk 5 false
        [[sampleNamed "a"]]).flushTooLongAfter = decide ((5 : Int) > 3) :=
  ⟨rfl, (flag_tracks_overrun 3 ttlOk rawTransform mOk id storeOk 5 false
    [[sampleNamed "a"]] [7] rfl).1⟩

theorem transform_error_logged_sample_dropped_cycle_continues_witness :
    (([] : List String).contains (sampleNamed "a").metric.name = false
      ∧ failTf (sampleNamed "a") (labelsOf ttlOk (sampleNamed "a"))
          = .error "mapping error")
    ∧ LogEvent.errorLog "mapping error"
        ∈ (processSamples ttlOk failTf [sampleNamed "a", sampleNamed "b"]
            [] [] []).2.2 :=
  ⟨⟨rfl, rfl⟩,
   (transform_error_logged_sample_dropped_cycle_continues ttlOk failTf
     (sampleNamed "a") [sampleNamed "b"] [] [] [] "mapping error" rfl rfl).2⟩

theorem label_error_logged_empty_labels_cycle_continues_witness :
    (ttlBad (sampleNamed "a").tags = .error "label error"
      ∧ ([] : List String).contains (sampleNamed "a").metric.name = false)
    ∧ LogEvent.errorLog "label error"
        ∈ (processSamples ttlBad rawTransform [sampleNamed "a", sampleNamed "b"]
            [] [] []).2.2 :=
  ⟨⟨rfl, rfl⟩,
   (label_error_logged_empty_labels_cycle_continues ttlBad rawTransform
     (sampleNamed "a") [sampleNamed "b"] [] [] [] "label error" rfl rfl).2⟩

theorem transport_error_logged_batch_dropped_witness :
    ((mOk (convertToTimeSeries ttlOk rawTransform false [[sampleNamed "a"]]).1
        = .ok [7])
      ∧ storeFail (id [7]) = some "store error")
    ∧ LogEvent.errorStore "store error"
        ∈ (flush 3 ttlOk rawTransform mOk id storeFail 5 false
            [[sampleNamed "a"]]).logs :=
  ⟨⟨rfl, rfl⟩,
   (transport_error_logged_batch_dropped 3 ttlOk rawTransform mOk id storeFail
     5 false [[sampleNamed "a"]] [7] "store error" rfl rfl).2.2.1⟩

theorem failed_first_sample_blanks_metric_for_cycle_witness :
    (([] : List String).contains (sampleNamed "a").metric.name = false
      ∧ failTf (sampleNamed "a") (labelsOf ttlOk (sampleNamed "a"))
          = .error "mapping error")
    ∧ processSamples ttlOk failTf [sampleNamed "a", sampleNamed "a"] [] [] []
        = processSamples ttlOk failTf
            ([sampleNamed "a"].filter
              fun x => x.metric.name != (sampleNamed "a").metric.name)
            ([] ++ [(sampleNamed "a").metric.name]) []
            (([] ++ labelLogs ttlOk (sampleNamed "a"))
              ++ [LogEvent.errorLog "mapping error"]) :=
  ⟨⟨rfl, rfl⟩,
   (failed_first_sample_blanks_metric_for_cycle ttlOk failTf (sampleNamed "a")
     [sampleNamed "a"] [] [] [] "mapping error" rfl rfl).1⟩

theorem empty_drain_still_sent_witness :
    (mOk [] = .ok [7])
    ∧ (flush 3 ttlOk rawTransform mOk id storeOk 5 false []).storedBytes
        = some (id [7]) :=
  ⟨rfl, (empty_drain_still_sent 3 ttlOk rawTransform mOk id storeOk 5 false
    [7] rfl).1⟩

end RemoteWrite
